import Mathlib

/-!
Verification of the expense-data-automation backend.

The definitions below are a shallow embedding of the Python sources:
* `src/backend/services/ai_parser.py` (heuristic normalizer and the
  remote-normalizer adapter around the Gemini call), and
* `src/backend/services/sqlite_db.py` / `firestore_db.py` (the two
  storage backends).

Machine floats of the source are modelled as rationals (every literal the
spec exercises is an exact decimal), Python dicts as association lists in
iteration order, and the external stores as explicit in-memory state.
Python string primitives (`lower`, `replace`, `strip`, `startswith`,
`in`) are re-implemented over character lists so that every definition
reduces inside the kernel; they agree with Python on the ASCII data this
system handles.
-/

namespace PyStr

/-- ASCII lowering of one character, as `str.lower` does on ASCII. -/
def lowerChar (c : Char) : Char :=
  if 'A' ≤ c ∧ c ≤ 'Z' then Char.ofNat (c.toNat + 32) else c

/-- Python `s.lower()` (ASCII fragment). -/
def pyToLower (s : String) : String := ⟨s.toList.map lowerChar⟩

/-- Worker for `pyReplace`: replace every non-overlapping occurrence of
`pat`, scanning left to right; `fuel` bounds the recursion by the input
length (the patterns used in the source are non-empty). -/
def replaceAux : Nat → List Char → List Char → List Char → List Char
  | 0, _, _, hay => hay
  | _ + 1, pat, rep, [] => if pat.isPrefixOf ([] : List Char) then rep else []
  | fuel + 1, pat, rep, c :: rest =>
    if pat.isPrefixOf (c :: rest) then
      rep ++ replaceAux fuel pat rep ((c :: rest).drop pat.length)
    else c :: replaceAux fuel pat rep rest

/-- Python `s.replace(pat, rep)`. -/
def pyReplace (s pat rep : String) : String :=
  ⟨replaceAux s.toList.length pat.toList rep.toList s.toList⟩

/-- The whitespace characters `str.strip()` removes on this system's data. -/
def isSpaceChar (c : Char) : Bool := c = ' ' || c = '\t' || c = '\n' || c = '\r'

/-- Python `s.strip()`. -/
def pyTrim (s : String) : String :=
  ⟨((s.toList.dropWhile isSpaceChar).reverse.dropWhile isSpaceChar).reverse⟩

/-- Python `s.startswith(pre)`. -/
def pyStartsWith (s pre : String) : Bool := pre.toList.isPrefixOf s.toList

/-- Python `c in s` for a single character `c`. -/
def strHasChar (s : String) (c : Char) : Bool := s.toList.contains c

/-- Python's `needle in hay` on strings: substring containment. -/
def pythonIn (needle hay : String) : Bool :=
  (List.range (hay.toList.length + 1)).any fun i =>
    needle.toList.isPrefixOf (hay.toList.drop i)

/-- Lexicographic strict order on character lists: the order Python string
comparison and SQLite's BINARY collation use on ASCII. -/
def charListLt : List Char → List Char → Bool
  | [], [] => false
  | [], _ :: _ => true
  | _ :: _, [] => false
  | a :: as, b :: bs => if a < b then true else if b < a then false else charListLt as bs

/-- Python `a < b` on strings. -/
def pyStrLt (a b : String) : Bool := charListLt a.toList b.toList

end PyStr

namespace AiParser

open PyStr

/-- A spreadsheet cell value as it reaches `_mock_normalize_expense_data`:
a Python `str`, a numeric cell (`int`/`float`), or a `datetime`-like value
(anything with a `.date` attribute), carried as year/month/day. -/
inductive Value where
  | vStr (s : String)
  | vNum (q : ℚ)
  | vDate (y m d : Nat)
  deriving DecidableEq, Repr

/-- Numeric value of a list of decimal digit characters. -/
def natOfDigits (ds : List Char) : Nat :=
  ds.foldl (fun a c => 10 * a + (c.toNat - 48)) 0

/-- Python `float(s)` on the plain decimal forms the pipeline produces:
optional sign, digits, optional single dot (`"120.50"`, `".5"`, `"7."`).
Exotic accepted forms (exponents, `inf`/`nan`, underscores) are modelled
as failures; no input in this system takes those shapes. -/
def parseDecimal (s : String) : Option ℚ :=
  let cs := s.toList
  let signed : Bool × List Char :=
    match cs with
    | '-' :: r => (true, r)
    | '+' :: r => (false, r)
    | r => (false, r)
  let intDigits := signed.2.takeWhile Char.isDigit
  let rest := signed.2.dropWhile Char.isDigit
  let mag : Option ℚ :=
    match rest with
    | [] => if intDigits.isEmpty then none else some (Rat.divInt (natOfDigits intDigits) 1)
    | '.' :: frac =>
      if frac.all Char.isDigit && !(intDigits.isEmpty && frac.isEmpty) then
        some (Rat.divInt (natOfDigits intDigits * 10 ^ frac.length + natOfDigits frac)
          (10 ^ frac.length))
      else none
    | _ => none
  mag.map fun q => if signed.1 then -q else q

/-- `str(value).replace(',', '').replace('$', '').replace('RM', '').strip()`
applied to a string cell (ai_parser.py line 165). -/
def stripAmountText (s : String) : String :=
  pyTrim (pyReplace (pyReplace (pyReplace s "," "") "$" "") "RM" "")

/-- `datetime.strftime`: two-digit zero padding for `%m`/`%d`. -/
def pad2 (n : Nat) : String := if n < 10 then "0" ++ toString n else toString n

/-- Four-digit zero padding for `%Y`. -/
def pad4 (n : Nat) : String :=
  if n < 10 then "000" ++ toString n
  else if n < 100 then "00" ++ toString n
  else if n < 1000 then "0" ++ toString n
  else toString n

/-- `value.strftime('%Y-%m-%d')` for a date-like cell. -/
def strftimeDash (y m d : Nat) : String := pad4 y ++ "-" ++ pad2 m ++ "-" ++ pad2 d

/-- Python `str(value)`: identity on strings; a numeric cell renders as its
decimal text (modelled via `toString`, only its reparse matters here); a
datetime renders with a time-of-day suffix. -/
def pyStrOf : Value → String
  | .vStr s => s
  | .vNum q => toString q
  | .vDate y m d => strftimeDash y m d ++ " 00:00:00"

/-- `float(str(value).replace(...).strip())` of ai_parser.py line 165, as an
option: `none` models the `except` path. A numeric cell round-trips through
`str`/`float`; `float()` of a datetime rendering raises. -/
def parseAmountValue : Value → Option ℚ
  | .vStr s => parseDecimal (stripAmountText s)
  | .vNum q => some q
  | .vDate _ _ _ => none

/-- Key test of ai_parser.py line 152. -/
def dateKeyMatch (kl : String) : Bool :=
  pythonIn "date" kl || pythonIn "day" kl || pythonIn "time" kl

/-- Key test of ai_parser.py line 163. -/
def amountKeyMatch (kl : String) : Bool :=
  pythonIn "amount" kl || pythonIn "price" kl || pythonIn "cost" kl ||
    pythonIn "rm" kl || kl = "amount" || kl = "total"

/-- Key test of ai_parser.py line 170. -/
def descKeyMatch (kl : String) : Bool :=
  pythonIn "description" kl || pythonIn "detail" kl ||
    pythonIn "item" kl || pythonIn "particular" kl

/-- Key test of ai_parser.py line 174. -/
def catKeyMatch (kl : String) : Bool :=
  pythonIn "category" kl || pythonIn "type" kl || pythonIn "class" kl

/-- The four per-row accumulators of `_mock_normalize_expense_data`. -/
structure RowState where
  dateVal : Option String
  amountVal : ℚ
  descriptionVal : String
  categoryVal : String
  deriving DecidableEq, Repr

/-- Initial accumulators (ai_parser.py lines 143-146). -/
def initState : RowState :=
  { dateVal := none, amountVal := 0, descriptionVal := "Expense", categoryVal := "General" }

/-- One iteration of the `for key, value in row.items()` loop
(ai_parser.py lines 148-175): each of the four independent `if` branches
fires when its key test matches the lowercased key. -/
def stepCell (st : RowState) (cell : String × Value) : RowState :=
  let kl := pyToLower cell.1
  let st1 :=
    if dateKeyMatch kl then
      { st with dateVal :=
          match cell.2 with
          | .vStr s => some s
          | .vDate y m d => some (strftimeDash y m d)
          | .vNum _ => st.dateVal }
    else st
  let st2 :=
    if amountKeyMatch kl then
      { st1 with amountVal := (parseAmountValue cell.2).getD st1.amountVal }
    else st1
  let st3 :=
    if descKeyMatch kl then { st2 with descriptionVal := pyStrOf cell.2 } else st2
  if catKeyMatch kl then { st3 with categoryVal := pyStrOf cell.2 } else st3

/-- The canonical output record: all four fields total by construction. -/
structure NormalizedExpense where
  date : String
  category : String
  description : String
  amount : ℚ
  deriving DecidableEq, Repr

/-- Date resolution after the key loop (ai_parser.py lines 177-183).
`if not date_val` is taken both for `None` and for the empty string. -/
def resolveDate (year : String) : Option String → String
  | none => year ++ "-01-01"
  | some d =>
    if d = "" then year ++ "-01-01"
    else if pyStartsWith d year then d
    else if strHasChar d '/' || strHasChar d '-' then year ++ "-" ++ d
    else d

/-- Per-row normalization: the key loop then date resolution and record
assembly (ai_parser.py lines 141-190). -/
def normalizeRow (year : String) (row : List (String × Value)) : NormalizedExpense :=
  let st := row.foldl stepCell initState
  { date := resolveDate year st.dateVal
    category := st.categoryVal
    description := st.descriptionVal
    amount := st.amountVal }

/-- `_mock_normalize_expense_data(raw_data, year)`: one output record
appended per input row, in order. -/
def mockNormalizeExpenseData (rawData : List (List (String × Value))) (year : String) :
    List NormalizedExpense :=
  rawData.map (normalizeRow year)

/-- A JSON value as `json.loads` produces it: the shapes a Gemini completion
can parse to. Objects are association lists in key order. -/
inductive Json where
  | null
  | bool (b : Bool)
  | str (s : String)
  | num (q : ℚ)
  | arr (xs : List Json)
  | obj (fields : List (String × Json))

/-- The dict literal built for each row (ai_parser.py lines 185-190),
viewed as its JSON object fields. -/
def recordJson (r : NormalizedExpense) : List (String × Json) :=
  [("date", .str r.date), ("category", .str r.category),
   ("description", .str r.description), ("amount", .num r.amount)]

/-- Dict lookup on JSON object fields. -/
def lookupField : List (String × Json) → String → Option Json
  | [], _ => none
  | (k, v) :: rest, key => if k = key then some v else lookupField rest key

/-- The four field names the validation loop requires
(ai_parser.py line 114). -/
def requiredKeys : List String := ["date", "category", "description", "amount"]

/-- One output record rendered as JSON, and the whole mock output as the
JSON array the adapter's callers receive. -/
def mockJson (rawData : List (List (String × Value))) (year : String) : Json :=
  .arr ((mockNormalizeExpenseData rawData year).map fun r => .obj (recordJson r))

/-- Python `all(key in item for key in [...])` for one iterated element of
the parsed completion: on a dict it is a key-membership test, on a string a
substring test, on a list an element-equality test; on a number, boolean or
`None` the `in` operator raises `TypeError`, modelled as `none`. -/
def hasKeysItem : Json → Option Bool
  | .obj fields => some (requiredKeys.all fun k => fields.any fun p => p.1 == k)
  | .str s => some (requiredKeys.all fun k => pythonIn k s)
  | .arr xs =>
    some (requiredKeys.all fun k =>
      xs.any fun j => match j with | .str s2 => s2 == k | _ => false)
  | .num _ => none
  | .bool _ => none
  | .null => none

/-- The `for item in normalized_data` validation loop (ai_parser.py lines
113-115) on the parsed completion value: iterating an array visits its
elements, iterating a dict visits its keys (strings), iterating a string
visits its one-character substrings; iterating a number, boolean or `None`
raises `TypeError`. `none` models an escaped exception (caught by the outer
handler), `some false` a raised `ValueError`, `some true` a clean pass. -/
def validateLoop : Json → Option Bool
  | .arr items =>
    if items.any fun i => (hasKeysItem i).isNone then none
    else some (items.all fun i => hasKeysItem i == some true)
  | .obj fields => some (fields.all fun p => requiredKeys.all fun k => pythonIn k p.1)
  | .str s => some (s.toList.all fun c => requiredKeys.all fun k => pythonIn k ⟨[c]⟩)
  | .num _ => none
  | .bool _ => none
  | .null => none

/-- The nested completion payload of the Gemini response body: candidates
missing/empty, candidates whose inner shape breaks the
`["content"]["parts"][0]["text"]` extraction, or an extracted text that
either fails `json.loads` (after code-fence stripping) or parses to a JSON
value. -/
inductive RemotePayload where
  | noCandidates
  | badShape
  | notJson
  | parsed (j : Json)

/-- The observable outcome of the remote call in `normalize_expense_data`:
no API key configured, a transport error (timeout, connection failure), or
an HTTP response with a status code and payload. -/
inductive RemoteEnv where
  | noKey
  | requestError
  | response (status : Nat) (payload : RemotePayload)

/-- `normalize_expense_data` (ai_parser.py lines 15-125) as a function of
the remote outcome: every failure path returns the heuristic normalization
of the full original rows; a parsed completion that survives the validation
loop is returned as-is. -/
def normalizeExpenseData (env : RemoteEnv) (rawData : List (List (String × Value)))
    (year : String) : Json :=
  match env with
  | .noKey => mockJson rawData year
  | .requestError => mockJson rawData year
  | .response status payload =>
    if status ≠ 200 then mockJson rawData year
    else
      match payload with
      | .noCandidates => mockJson rawData year
      | .badShape => mockJson rawData year
      | .notJson => mockJson rawData year
      | .parsed j =>
        match validateLoop j with
        | some true => j
        | _ => mockJson rawData year

end AiParser

namespace Db

open PyStr

/-- A persisted expense record as both backends return it from queries.
Backend-assigned metadata (the SQLite row id / the Firestore document id,
`source_file`, `imported_at`) is carried next to it where a claim needs it;
`category` is nullable in the schema. -/
structure Expense where
  year : String
  date : String
  category : Option String
  description : String
  amount : ℚ
  deriving DecidableEq, Repr

/-- A record as handed to `save_expenses`: the code reads each field with
`expense.get(...)`, which can be absent (`None`). -/
structure SaveRecord where
  date : Option AiParser.Value
  category : Option AiParser.Value
  description : Option AiParser.Value
  amount : Option AiParser.Value
  deriving DecidableEq, Repr

/-- Whether the SQLite `INSERT` of one record succeeds: the table declares
`date TEXT NOT NULL` and `amount REAL NOT NULL` (sqlite_db.py lines 27-39),
so a record missing either raises and is caught per-record; `year`,
`source_file`, `imported_at` are always supplied by the loop itself, and
`category`/`description` are nullable. -/
def insertOk (e : SaveRecord) : Bool := e.date.isSome && e.amount.isSome

/-- The statistics dict returned by `save_expenses`. -/
structure ImportResult where
  imported : Nat
  skipped : Nat
  status : String
  errors : List String
  deriving DecidableEq, Repr

/-- One iteration of the per-record save loop (sqlite_db.py lines 84-103):
success bumps `imported`, a caught failure bumps `skipped` and appends one
error message. -/
def saveStep (acc : Nat × Nat × List String) (e : SaveRecord) : Nat × Nat × List String :=
  if insertOk e then (acc.1 + 1, acc.2.1, acc.2.2)
  else (acc.1, acc.2.1 + 1, acc.2.2 ++ ["Error saving expense"])

/-- `SQLiteDatabase.save_expenses` on the non-fatal path (sqlite_db.py
lines 59-112): every record is attempted, then the statistics dict is built
with `errors[:10]`. -/
def sqliteSaveExpenses (year : String) (records : List SaveRecord) (sourceFile : String) :
    ImportResult :=
  let acc := records.foldl saveStep (0, 0, [])
  { imported := acc.1
    skipped := acc.2.1
    status := if acc.1 > 0 then "ok" else "error"
    errors := acc.2.2.take 10 }

/-- `FirestoreDatabase.save_expenses` (firestore_db.py lines 31-102):
with no client it reports everything skipped; otherwise every record is
staged into write batches (`batch.set` on an in-memory batch does not raise
for these dict-shaped records) and counted as imported. -/
def firestoreSaveExpenses (dbOk : Bool) (year : String) (records : List SaveRecord)
    (sourceFile : String) : ImportResult :=
  if !dbOk then
    { imported := 0, skipped := records.length, status := "error", errors := [] }
  else
    { imported := records.length
      skipped := 0
      status := if records.length > 0 then "ok" else "error"
      errors := [] }

/-- Insertion into a date-descending list, keeping it date-descending. -/
def insertByDateDesc (e : Expense) : List Expense → List Expense
  | [] => [e]
  | x :: xs => if pyStrLt x.date e.date then e :: x :: xs else x :: insertByDateDesc e xs

/-- A date-descending ordering of a list, modelling both SQLite's
`ORDER BY date DESC` and Python's `sorted(key=..., reverse=True)`; tie
order among equal dates is irrelevant to every property stated here. -/
def sortByDateDesc (l : List Expense) : List Expense := l.foldr insertByDateDesc []

/-- `SQLiteDatabase.get_expenses_by_year` (sqlite_db.py lines 125-161) over
the table contents: `WHERE year = ?`, `ORDER BY date DESC`, and a `LIMIT`
clause appended only when `limit` is truthy (line 142: `if limit:`). -/
def sqliteGetExpensesByYear (rows : List Expense) (year : String) (limit : Option Nat) :
    List Expense :=
  let sel := sortByDateDesc (rows.filter fun r => r.year == year)
  match limit with
  | none => sel
  | some n => if n = 0 then sel else sel.take n

/-- One document of a Firestore year partition: an auto-assigned id plus the
stored record. Within a partition the documents are kept in Firestore's
default streaming order (ascending document id). -/

structure FDoc where
  id : String
  data : Expense
  deriving DecidableEq, Repr

/-- The Firestore state: `collection/{year}/records` subcollections keyed by
year, plus the set of year documents that exist as documents (the partition
existence markers). -/
structure FStore where
  partitions : List (String × List FDoc)
  markers : List String
  deriving DecidableEq, Repr

/-- Association-list lookup, keyed by year. -/
def alistLookup {α : Type} : List (String × α) → String → Option α
  | [], _ => none
  | (k, v) :: rest, key => if k = key then some v else alistLookup rest key

/-- `FirestoreDatabase.get_expenses_by_year` (firestore_db.py lines
112-139): streams the year's `records` subcollection — with `.limit(limit)`
only when `limit` is truthy (line 124: `if limit:`) — and returns the
documents in stream order; no ordering clause is applied. -/
def firestoreGetExpensesByYear (store : FStore) (year : String) (limit : Option Nat) :
    List Expense :=
  let docs := (alistLookup store.partitions year).getD []
  let docs :=
    match limit with
    | none => docs
    | some n => if n = 0 then docs else docs.take n
  docs.map FDoc.data

/-- The `{status, deleted, message}` dict of `delete_expenses_by_year`. -/
structure DeleteResult where
  status : String
  deleted : Nat
  deriving DecidableEq, Repr

/-- `SQLiteDatabase.delete_expenses_by_year` (sqlite_db.py lines 239-267):
counts the year's rows, deletes them, returns the count with status ok.
Returns the table contents after the delete together with the result. -/
def sqliteDeleteExpensesByYear (rows : List Expense) (year : String) :
    List Expense × DeleteResult :=
  let count := (rows.filter fun r => r.year == year).length
  (rows.filter fun r => !(r.year == year), { status := "ok", deleted := count })

/-- `FirestoreDatabase.delete_expenses_by_year` (firestore_db.py lines
227-264): streams the partition with `.limit(500)`, deletes exactly those
documents in one batch, deletes the year marker document, and reports the
batch size as `deleted`. No loop refills the batch, so documents beyond the
first 500 survive. -/
def firestoreDeleteExpensesByYear (store : FStore) (year : String) :
    FStore × DeleteResult :=
  let docs := (alistLookup store.partitions year).getD []
  let deleted := (docs.take 500).length
  ({ partitions := store.partitions.map fun p => if p.1 == year then (p.1, p.2.drop 500) else p
     markers := store.markers.filter fun y => !(y == year) },
   { status := "ok", deleted := deleted })

/-- The six optional search filters. -/
structure SearchFilters where
  year : Option String
  category : Option String
  dateFrom : Option String
  dateTo : Option String
  minAmount : Option ℚ
  maxAmount : Option ℚ

/-- Python truthiness of an optional string parameter: the source guards the
string filters with `if year:` etc., so `None` and `""` both disable them. -/
def strTruthy : Option String → Bool
  | none => false
  | some s => !(s == "")

/-- The non-year filter conditions shared by the two search
implementations: category is an exact, case-sensitive match (a `NULL`
category never equals a filter string), the date range is an inclusive
string comparison, the amount range an inclusive numeric comparison;
string filters apply when truthy, amount filters when not `None`. -/
def restMatch (f : SearchFilters) (r : Expense) : Bool :=
  (if strTruthy f.category then r.category == some (f.category.getD "") else true) &&
  (if strTruthy f.dateFrom then !(pyStrLt r.date (f.dateFrom.getD "")) else true) &&
  (if strTruthy f.dateTo then !(pyStrLt (f.dateTo.getD "") r.date) else true) &&
  (match f.minAmount with | none => true | some a => decide (a ≤ r.amount)) &&
  (match f.maxAmount with | none => true | some b => decide (r.amount ≤ b))

/-- The `WHERE` conjunction `SQLiteDatabase.search_expenses` builds
(sqlite_db.py lines 282-314): the year condition and the five other
conditions, conjoined. -/
def sqliteMatch (f : SearchFilters) (r : Expense) : Bool :=
  (if strTruthy f.year then r.year == f.year.getD "" else true) && restMatch f r

/-- All records of the store, partition by partition — the list built by the
no-year branch of the Firestore search (firestore_db.py lines 285-291), and
also the table contents obtained by seeding SQLite with the same data. -/
def flattenDocs (store : FStore) : List Expense :=
  store.partitions.foldr (fun p acc => p.2.map FDoc.data ++ acc) []

/-- The five sequential in-memory filters of the Firestore search
(firestore_db.py lines 299-315), applied in source order. -/
def pyFilterChain (f : SearchFilters) (docs : List Expense) : List Expense :=
  let docs :=
    if strTruthy f.category then docs.filter (fun e => e.category == some (f.category.getD ""))
    else docs
  let docs :=
    if strTruthy f.dateFrom then docs.filter (fun e => !(pyStrLt e.date (f.dateFrom.getD "")))
    else docs
  let docs :=
    if strTruthy f.dateTo then docs.filter (fun e => !(pyStrLt (f.dateTo.getD "") e.date))
    else docs
  let docs :=
    match f.minAmount with
    | none => docs
    | some a => docs.filter fun e => decide (a ≤ e.amount)
  match f.maxAmount with
  | none => docs
  | some b => docs.filter fun e => decide (e.amount ≤ b)

/-- `FirestoreDatabase.search_expenses` (firestore_db.py lines 266-317):
pick the year partition when `year` is truthy, else every partition; then
apply the five in-memory filters in sequence; then
`sorted(key=date, reverse=True)`. -/
def firestoreSearchExpenses (store : FStore) (f : SearchFilters) : List Expense :=
  let docs :=
    if strTruthy f.year then ((alistLookup store.partitions (f.year.getD "")).getD []).map FDoc.data
    else flattenDocs store
  sortByDateDesc (pyFilterChain f docs)

/-- `SQLiteDatabase.search_expenses` (sqlite_db.py lines 269-332) over the
table contents: the `WHERE` conjunction then `ORDER BY date DESC`. -/
def sqliteSearchExpenses (rows : List Expense) (f : SearchFilters) : List Expense :=
  sortByDateDesc (rows.filter (sqliteMatch f))

/-- Well-formedness of a Firestore store: partition keys are distinct and
every stored document carries the `year` metadata field of its partition
(stamped at save time, firestore_db.py lines 69-74). -/
def FStoreWF (store : FStore) : Prop :=
  store.partitions.Pairwise (fun p q => p.1 ≠ q.1) ∧
  ∀ p ∈ store.partitions, ∀ d ∈ p.2, d.data.year = p.1

/-- Date-descending order: no element is date-smaller than a later one. -/
def dateSortedDesc (l : List Expense) : Prop :=
  l.Pairwise fun a b => pyStrLt a.date b.date = false

/-- Two concrete records of year 2023, dated in ascending order. -/
def exA : Expense :=
  { year := "2023", date := "2023-01-05", category := some "General",
    description := "a", amount := Rat.divInt 10 1 }

/-- Second concrete record, with the later date. -/
def exB : Expense :=
  { year := "2023", date := "2023-02-06", category := some "General",
    description := "b", amount := Rat.divInt 20 1 }

/-- A Firestore store whose 2023 partition holds `exA` then `exB` in
document-id order, i.e. in ascending date order. -/
def fstoreAB : FStore :=
  { partitions := [("2023", [{ id := "a", data := exA }, { id := "b", data := exB }])]
    markers := ["2023"] }

/-- One of 501 identical documents for the oversized-partition input. -/
def c4doc (i : Nat) : FDoc := { id := toString i, data := exA }

/-- A Firestore store whose 2023 partition holds 501 documents — one more
than the single delete batch the code issues. -/
def c4bigStore : FStore :=
  { partitions := [("2023", (List.range 501).map c4doc)], markers := ["2023"] }

/-- Filters with only the inclusive amount range 5..200 set. -/
def amountFilter520 : SearchFilters :=
  { year := none, category := none, dateFrom := none, dateTo := none,
    minAmount := some (Rat.divInt 5 1), maxAmount := some (Rat.divInt 200 1) }

end Db

namespace PyStr

theorem charListLt_irrefl : ∀ a : List Char, charListLt a a = false := by
  intro a
  induction a with
  | nil => rfl
  | cons x xs ih => simp [charListLt, lt_irrefl, ih]

theorem charListLt_asymm : ∀ a b : List Char,
    charListLt a b = true → charListLt b a = false := by
  intro a
  induction a with
  | nil =>
    intro b h
    cases b with
    | nil => simp [charListLt] at h
    | cons y ys => simp [charListLt]
  | cons x xs ih =>
    intro b h
    cases b with
    | nil => simp [charListLt] at h
    | cons y ys =>
      by_cases h1 : x < y
      · have h2 : ¬ y < x := lt_asymm h1
        simp [charListLt, h1, h2]
      · by_cases h2 : y < x
        · simp [charListLt, h1, h2] at h
        · simp only [charListLt, if_neg h1, if_neg h2] at h ⊢
          exact ih ys h

theorem charListLt_trans : ∀ a b c : List Char,
    charListLt a b = true → charListLt b c = true → charListLt a c = true := by
  intro a
  induction a with
  | nil =>
    intro b c hab hbc
    cases b with
    | nil => simp [charListLt] at hab
    | cons y ys =>
      cases c with
      | nil => simp [charListLt] at hbc
      | cons z zs => simp [charListLt]
  | cons x xs ih =>
    intro b c hab hbc
    cases b with
    | nil => simp [charListLt] at hab
    | cons y ys =>
      cases c with
      | nil => simp [charListLt] at hbc
      | cons z zs =>
        by_cases hxy : x < y
        · by_cases hyz : y < z
          · simp [charListLt, lt_trans hxy hyz]
          · by_cases hzy : z < y
            · simp [charListLt, hyz, hzy] at hbc
            · have hyz2 : y = z := le_antisymm (not_lt.mp hzy) (not_lt.mp hyz)
              subst hyz2
              simp [charListLt, hxy]
        · by_cases hyx : y < x
          · simp [charListLt, hxy, hyx] at hab
          · have hxy2 : x = y := le_antisymm (not_lt.mp hyx) (not_lt.mp hxy)
            subst hxy2
            simp only [charListLt, lt_irrefl, if_false] at hab
            by_cases hxz : x < z
            · simp [charListLt, hxz]
            · by_cases hzx : z < x
              · simp [charListLt, hxz, hzx] at hbc
              · have hxz2 : x = z := le_antisymm (not_lt.mp hzx) (not_lt.mp hxz)
                subst hxz2
                simp only [charListLt, lt_irrefl, if_false] at hbc ⊢
                exact ih ys zs hab hbc

theorem pyStrLt_asymm {a b : String} (h : pyStrLt a b = true) : pyStrLt b a = false :=
  charListLt_asymm _ _ h

theorem pyStrLt_trans {a b c : String} (hab : pyStrLt a b = true) (hbc : pyStrLt b c = true) :
    pyStrLt a c = true :=
  charListLt_trans _ _ _ hab hbc

theorem pyStrLt_irrefl (a : String) : pyStrLt a a = false :=
  charListLt_irrefl _

end PyStr

namespace AiParser

open PyStr

theorem lookupField_recordJson_date (r : NormalizedExpense) :
    lookupField (recordJson r) "date" = some (.str r.date) := rfl

theorem lookupField_recordJson_category (r : NormalizedExpense) :
    lookupField (recordJson r) "category" = some (.str r.category) := rfl

theorem lookupField_recordJson_description (r : NormalizedExpense) :
    lookupField (recordJson r) "description" = some (.str r.description) := rfl

theorem lookupField_recordJson_amount (r : NormalizedExpense) :
    lookupField (recordJson r) "amount" = some (.num r.amount) := rfl

/-- The amount branch of the key loop: when the lowered key matches the
amount vocabulary, the accumulator becomes the parsed value if parsing
succeeds and is left unchanged otherwise. -/
theorem stepCell_amountVal_of_match (st : RowState) (cell : String × Value)
    (h : amountKeyMatch (pyToLower cell.1) = true) :
    (stepCell st cell).amountVal = (parseAmountValue cell.2).getD st.amountVal := by
  by_cases hd : dateKeyMatch (pyToLower cell.1) = true <;>
    by_cases hdesc : descKeyMatch (pyToLower cell.1) = true <;>
      by_cases hcat : catKeyMatch (pyToLower cell.1) = true <;>
        simp [stepCell, h, hd, hdesc, hcat]

/-- A cell whose key does not match the date vocabulary leaves the date
accumulator alone. -/
theorem stepCell_dateVal_of_no_match (st : RowState) (cell : String × Value)
    (h : dateKeyMatch (pyToLower cell.1) = false) :
    (stepCell st cell).dateVal = st.dateVal := by
  by_cases ha : amountKeyMatch (pyToLower cell.1) = true <;>
    by_cases hdesc : descKeyMatch (pyToLower cell.1) = true <;>
      by_cases hcat : catKeyMatch (pyToLower cell.1) = true <;>
        simp [stepCell, h, ha, hdesc, hcat]

/-- Folding the key loop over a row with no date-matching key preserves the
date accumulator. -/
theorem foldl_dateVal_of_no_match (row : List (String × Value)) (st : RowState)
    (h : ∀ cell ∈ row, dateKeyMatch (pyToLower cell.1) = false) :
    (row.foldl stepCell st).dateVal = st.dateVal := by
  induction row generalizing st with
  | nil => rfl
  | cons c rest ih =>
    rw [List.foldl_cons, ih _ (fun cell hc => h cell (List.mem_cons_of_mem c hc)),
      stepCell_dateVal_of_no_match st c (h c (List.mem_cons_self c rest))]

/-- A date-matching cell sets the date accumulator to its string value and a
non-matching one leaves it; so if every date-matching cell carries the empty
string, the accumulator stays `none` or becomes `some ""`. -/
theorem foldl_dateVal_of_empty (row : List (String × Value)) (st : RowState)
    (h : ∀ cell ∈ row, dateKeyMatch (pyToLower cell.1) = true → cell.2 = .vStr "")
    (hst : st.dateVal = none ∨ st.dateVal = some "") :
    (row.foldl stepCell st).dateVal = none ∨ (row.foldl stepCell st).dateVal = some "" := by
  induction row generalizing st with
  | nil => exact hst
  | cons c rest ih =>
    rw [List.foldl_cons]
    refine ih _ (fun cell hc => h cell (List.mem_cons_of_mem c hc)) ?_
    by_cases hd : dateKeyMatch (pyToLower c.1) = true
    · have hc : c.2 = .vStr "" := h c (List.mem_cons_self c rest) hd
      right
      by_cases ha : amountKeyMatch (pyToLower c.1) = true <;>
        by_cases hdesc : descKeyMatch (pyToLower c.1) = true <;>
          by_cases hcat : catKeyMatch (pyToLower c.1) = true <;>
            simp [stepCell, hd, hc, ha, hdesc, hcat]
    · rw [stepCell_dateVal_of_no_match st c (Bool.not_eq_true _ ▸ hd)]
      exact hst

/-- C1: for every sequence of raw rows and every year string, the heuristic
normalizer returns exactly one output record per input row, in input order
(the output length equals the input length and the i-th output is the
normalization of the i-th row), and every output record's rendered dict has
all four fields `date`, `category`, `description`, `amount` present and
non-null; being a total function, it never fails with an error. -/
theorem C1_mock_normalizer_total (rawData : List (List (String × Value))) (year : String) :
    (mockNormalizeExpenseData rawData year).length = rawData.length ∧
    (∀ i : Nat, (mockNormalizeExpenseData rawData year)[i]? =
      (rawData[i]?).map (normalizeRow year)) ∧
    ∀ r ∈ mockNormalizeExpenseData rawData year,
      ∀ k ∈ ["date", "category", "description", "amount"],
        ∃ v, lookupField (recordJson r) k = some v ∧ v ≠ Json.null := by
  refine ⟨List.length_map _ _, fun i => ?_, fun r _ k hk => ?_⟩
  · simp [mockNormalizeExpenseData]
  · simp only [List.mem_cons, List.not_mem_nil, or_false] at hk
    rcases hk with rfl | rfl | rfl | rfl
    · exact ⟨_, lookupField_recordJson_date r, fun h => Json.noConfusion h⟩
    · exact ⟨_, lookupField_recordJson_category r, fun h => Json.noConfusion h⟩
    · exact ⟨_, lookupField_recordJson_description r, fun h => Json.noConfusion h⟩
    · exact ⟨_, lookupField_recordJson_amount r, fun h => Json.noConfusion h⟩

/-- Witness for C1 at a concrete input. -/
theorem C1_mock_normalizer_total_witness :
    ∃ v, lookupField (recordJson (normalizeRow "2023" [("Unknown", Value.vStr "x")])) "date" =
      some v ∧ v ≠ Json.null :=
  (C1_mock_normalizer_total [[("Unknown", Value.vStr "x")]] "2023").2.2
    (normalizeRow "2023" [("Unknown", Value.vStr "x")])
    (by simp [mockNormalizeExpenseData]) "date" (by simp)

/-- C5: an amount candidate value is parsed by stripping `","` and `"$"` and
the literal token `"RM"`, trimming whitespace, and parsing as a decimal
number; `"RM 1,234.50"` yields `1234.50` (= 2469/2) and `"$99.99"` yields
`99.99` (= 9999/100); and on parse failure the running amount accumulator is
left unchanged rather than overwritten with a sentinel. -/
theorem C5_amount_parsing :
    (∀ s, parseAmountValue (.vStr s) =
      parseDecimal (pyTrim (pyReplace (pyReplace (pyReplace s "," "") "$" "") "RM" ""))) ∧
    parseAmountValue (.vStr "RM 1,234.50") = some (Rat.divInt 2469 2) ∧
    parseAmountValue (.vStr "$99.99") = some (Rat.divInt 9999 100) ∧
    (∀ st cell, amountKeyMatch (pyToLower cell.1) = true →
      (stepCell st cell).amountVal = (parseAmountValue cell.2).getD st.amountVal) ∧
    (∀ st cell, amountKeyMatch (pyToLower cell.1) = true → parseAmountValue cell.2 = none →
      (stepCell st cell).amountVal = st.amountVal) :=
  ⟨fun _ => rfl, by decide, by decide,
   fun st cell h => stepCell_amountVal_of_match st cell h,
   fun st cell h hn => by rw [stepCell_amountVal_of_match st cell h, hn]; rfl⟩

/-- Witness for C5 at concrete inputs: a matched key with an unparsable value
leaves the accumulator, and a matched key with `"RM 1,234.50"` sets it. -/
theorem C5_amount_parsing_witness :
    (stepCell initState ("Amount", Value.vStr "oops")).amountVal = initState.amountVal ∧
    (stepCell initState ("Cost", Value.vStr "RM 1,234.50")).amountVal = Rat.divInt 2469 2 := by
  constructor
  · exact C5_amount_parsing.2.2.2.2 initState ("Amount", Value.vStr "oops") (by decide) (by decide)
  · rw [C5_amount_parsing.2.2.2.1 initState ("Cost", Value.vStr "RM 1,234.50") (by decide)]
    decide

/-- C6: a row with no date-candidate key resolves to `{year}-01-01`; a row
whose resolved date candidate does not start with the year and contains `/`
or `-` resolves to `{year}-` prefixed to the candidate; and the row
`{"Unknown": "x"}` with year `"2023"` yields exactly the default record. -/
theorem C6_date_resolution :
    (∀ year row, (∀ cell ∈ row, dateKeyMatch (pyToLower cell.1) = false) →
      (normalizeRow year row).date = year ++ "-01-01") ∧
    (∀ year row d, (row.foldl stepCell initState).dateVal = some d →
      pyStartsWith d year = false → (strHasChar d '/' || strHasChar d '-') = true →
      (normalizeRow year row).date = year ++ "-" ++ d) ∧
    normalizeRow "2023" [("Unknown", Value.vStr "x")] =
      { date := "2023-01-01", category := "General", description := "Expense", amount := 0 } := by
  refine ⟨fun year row h => ?_, fun year row d hd hstart hcont => ?_, by decide⟩
  · show resolveDate year (row.foldl stepCell initState).dateVal = year ++ "-01-01"
    rw [foldl_dateVal_of_no_match row initState h]
    rfl
  · show resolveDate year (row.foldl stepCell initState).dateVal = year ++ "-" ++ d
    have hne : d ≠ "" := by
      intro he
      subst he
      exact absurd hcont (by decide)
    rw [hd]
    simp only [resolveDate]
    rw [if_neg hne, if_neg (by simp [hstart]), if_pos hcont]

/-- Witness for C6 at concrete inputs: the no-candidate default and the
year-prefix repair. -/
theorem C6_date_resolution_witness :
    (normalizeRow "2023" [("Unknown", Value.vStr "x")]).date = "2023" ++ "-01-01" ∧
    (normalizeRow "2023" [("Day", Value.vStr "03/15")]).date = "2023" ++ "-" ++ "03/15" :=
  ⟨C6_date_resolution.1 "2023" [("Unknown", Value.vStr "x")] (by decide),
   C6_date_resolution.2.1 "2023" [("Day", Value.vStr "03/15")] "03/15"
     (by decide) (by decide) (by decide)⟩

/-- C10: a row whose date-candidate cells all carry the empty string (a falsy
string) is dated exactly as if no date candidate had been found — the output
date is `{year}-01-01` and no `{year}-` prefixing is attempted. -/
theorem C10_empty_date_candidate :
    (∀ year row, (∀ cell ∈ row, dateKeyMatch (pyToLower cell.1) = true → cell.2 = .vStr "") →
      (normalizeRow year row).date = year ++ "-01-01") ∧
    (normalizeRow "2023" [("Date", Value.vStr "")]).date = "2023-01-01" := by
  refine ⟨fun year row h => ?_, by decide⟩
  show resolveDate year (row.foldl stepCell initState).dateVal = year ++ "-01-01"
  rcases foldl_dateVal_of_empty row initState h (Or.inl rfl) with h0 | h0 <;> rw [h0] <;> rfl

/-- Witness for C10 at a concrete input. -/
theorem C10_empty_date_candidate_witness :
    (normalizeRow "2023" [("Date", Value.vStr ""), ("Amount", Value.vStr "5")]).date =
      "2023" ++ "-01-01" :=
  C10_empty_date_candidate.1 "2023" [("Date", Value.vStr ""), ("Amount", Value.vStr "5")]
    (by decide)

theorem normalizeExpenseData_parsed (j : Json) (rawData : List (List (String × Value)))
    (year : String) :
    normalizeExpenseData (.response 200 (.parsed j)) rawData year =
      match validateLoop j with
      | some true => j
      | _ => mockJson rawData year := rfl

/-- C8 counterexample: a completion text of `"{}"` parses to an empty JSON
object, whose (empty) key iteration passes the validation loop, so the
adapter returns the empty object as-is instead of falling back — refuting
"falls back whenever the completion text does not parse as a JSON array". -/
theorem C8_counterexample :
    normalizeExpenseData (.response 200 (.parsed (Json.obj []))) [] "2023" = Json.obj [] ∧
    mockJson [] "2023" = Json.arr [] ∧
    normalizeExpenseData (.response 200 (.parsed (Json.obj []))) [] "2023" ≠
      mockJson [] "2023" := by
  refine ⟨rfl, rfl, ?_⟩
  intro h
  rw [show normalizeExpenseData (.response 200 (.parsed (Json.obj []))) [] "2023" =
      Json.obj [] from rfl,
    show mockJson [] "2023" = Json.arr [] from rfl] at h
  exact Json.noConfusion h

/-- C8 (amended): the adapter returns the heuristic normalization of the
full original rows on every listed failure — missing credential, transport
error, non-200 status, missing or malformed completion payload shape,
completion text that fails JSON parsing, and any iterated element of the
parsed value missing a required field (one malformed element discards the
whole response: all-or-nothing, never per-row fallback) — and it never
surfaces an error: the result is always either the validated remote value
or the full heuristic output. The one deviation from the claim is that a
parsed non-array value whose iteration raises nothing and passes the key
check (e.g. the empty JSON object) is returned as-is instead of triggering
fallback (the counterexample). -/
theorem C8_adapter_fallback (rawData : List (List (String × Value))) (year : String) :
    normalizeExpenseData .noKey rawData year = mockJson rawData year ∧
    normalizeExpenseData .requestError rawData year = mockJson rawData year ∧
    (∀ status payload, status ≠ 200 →
      normalizeExpenseData (.response status payload) rawData year = mockJson rawData year) ∧
    (∀ status, normalizeExpenseData (.response status .noCandidates) rawData year =
      mockJson rawData year) ∧
    (∀ status, normalizeExpenseData (.response status .badShape) rawData year =
      mockJson rawData year) ∧
    (∀ status, normalizeExpenseData (.response status .notJson) rawData year =
      mockJson rawData year) ∧
    (∀ j, validateLoop j ≠ some true →
      normalizeExpenseData (.response 200 (.parsed j)) rawData year =
        mockJson rawData year) ∧
    (∀ items item, item ∈ items → hasKeysItem item ≠ some true →
      normalizeExpenseData (.response 200 (.parsed (.arr items))) rawData year =
        mockJson rawData year) ∧
    (∀ j, normalizeExpenseData (.response 200 (.parsed j)) rawData year = j ∨
      normalizeExpenseData (.response 200 (.parsed j)) rawData year =
        mockJson rawData year) := by
  have hparsed : ∀ j, validateLoop j ≠ some true →
      normalizeExpenseData (.response 200 (.parsed j)) rawData year =
        mockJson rawData year := by
    intro j h
    rw [normalizeExpenseData_parsed]
    rcases hv : validateLoop j with _ | b
    · rfl
    · cases b
      · rfl
      · exact absurd hv h
  refine ⟨rfl, rfl, ?_, ?_, ?_, ?_, hparsed, ?_, ?_⟩
  · intro status payload h
    simp [normalizeExpenseData, h]
  · intro status
    by_cases h : status ≠ 200 <;> simp [normalizeExpenseData, h]
  · intro status
    by_cases h : status ≠ 200 <;> simp [normalizeExpenseData, h]
  · intro status
    by_cases h : status ≠ 200 <;> simp [normalizeExpenseData, h]
  · intro items item hi hbad
    refine hparsed _ ?_
    rw [show validateLoop (.arr items) =
      (if items.any (fun i => (hasKeysItem i).isNone) then none
       else some (items.all fun i => hasKeysItem i == some true)) from rfl]
    by_cases hn : items.any fun i => (hasKeysItem i).isNone
    · simp [hn]
    · rw [if_neg hn]
      intro hc
      have hall := Option.some.inj hc
      have hitem := List.all_eq_true.mp hall item hi
      exact hbad (eq_of_beq hitem)
  · intro j
    rw [normalizeExpenseData_parsed]
    rcases hv : validateLoop j with _ | b
    · right; rfl
    · cases b
      · right; rfl
      · left; rfl

/-- Witness for C8 at concrete inputs: a non-200 status falls back, and an
array containing one element missing required fields falls back wholesale. -/
theorem C8_adapter_fallback_witness :
    normalizeExpenseData (.response 500 .noCandidates) [[("Unknown", Value.vStr "x")]]
      "2023" = mockJson [[("Unknown", Value.vStr "x")]] "2023" ∧
    normalizeExpenseData
        (.response 200 (.parsed (.arr [Json.obj [("date", Json.str "2023-01-01")]])))
        [] "2023" = mockJson [] "2023" :=
  ⟨(C8_adapter_fallback [[("Unknown", Value.vStr "x")]] "2023").2.2.1 500 .noCandidates
     (by decide),
   (C8_adapter_fallback [] "2023").2.2.2.2.2.2.2.1
     [Json.obj [("date", Json.str "2023-01-01")]] (Json.obj [("date", Json.str "2023-01-01")])
     (List.mem_singleton.mpr rfl) (by decide)⟩

end AiParser

namespace Db

open PyStr

/-- The save loop counts exactly the passing and failing records and
appends one message per failure, from any starting accumulator. -/
theorem saveStep_foldl (records : List SaveRecord) (a b : Nat) (l : List String) :
    records.foldl saveStep (a, b, l) =
      (a + (records.filter insertOk).length,
       b + (records.filter fun e => !insertOk e).length,
       l ++ List.replicate (records.filter fun e => !insertOk e).length "Error saving expense") := by
  induction records generalizing a b l with
  | nil => simp
  | cons r rest ih =>
    simp only [List.foldl_cons, saveStep]
    by_cases h : insertOk r
    · rw [if_pos h, ih]
      simp [List.filter_cons, h]
      omega
    · rw [if_neg h, ih]
      simp [List.filter_cons, h, List.replicate_succ]
      omega

/-- C2: save_expenses accounting on either backend: `imported` counts the
records whose insert succeeds, `skipped` the per-record failures (which do
not abort the batch), `imported + skipped = len(records)` on the non-fatal
path, `status` is `"ok"` exactly when `imported > 0`, and at most 10 error
messages are kept. -/
theorem C2_save_accounting (year : String) (records : List SaveRecord) (sourceFile : String) :
    (sqliteSaveExpenses year records sourceFile).imported +
        (sqliteSaveExpenses year records sourceFile).skipped = records.length ∧
    (sqliteSaveExpenses year records sourceFile).imported =
      (records.filter insertOk).length ∧
    (sqliteSaveExpenses year records sourceFile).skipped =
      (records.filter fun e => !insertOk e).length ∧
    (sqliteSaveExpenses year records sourceFile).status =
      (if 0 < (sqliteSaveExpenses year records sourceFile).imported then "ok" else "error") ∧
    (sqliteSaveExpenses year records sourceFile).errors.length ≤ 10 ∧
    (∀ dbOk, (firestoreSaveExpenses dbOk year records sourceFile).imported +
        (firestoreSaveExpenses dbOk year records sourceFile).skipped = records.length) ∧
    (∀ dbOk, (firestoreSaveExpenses dbOk year records sourceFile).status =
      (if 0 < (firestoreSaveExpenses dbOk year records sourceFile).imported
        then "ok" else "error")) ∧
    (∀ dbOk, (firestoreSaveExpenses dbOk year records sourceFile).errors.length ≤ 10) := by
  have hfold := saveStep_foldl records 0 0 []
  have himp : (sqliteSaveExpenses year records sourceFile).imported =
      (records.filter insertOk).length := by
    simp [sqliteSaveExpenses, hfold]
  have hskip : (sqliteSaveExpenses year records sourceFile).skipped =
      (records.filter fun e => !insertOk e).length := by
    simp [sqliteSaveExpenses, hfold]
  refine ⟨?_, himp, hskip, ?_, ?_, ?_, ?_, ?_⟩
  · rw [himp, hskip]
    exact (List.length_eq_length_filter_add insertOk).symm
  · simp [sqliteSaveExpenses, hfold, Nat.pos_iff_ne_zero, Nat.lt_iff_add_one_le]
  · simp only [sqliteSaveExpenses, hfold]
    simp [List.length_take]
  · intro dbOk
    cases dbOk <;> simp [firestoreSaveExpenses]
  · intro dbOk
    cases dbOk <;> simp [firestoreSaveExpenses]
  · intro dbOk
    cases dbOk <;> simp [firestoreSaveExpenses]

theorem sortByDateDesc_cons (x : Expense) (xs : List Expense) :
    sortByDateDesc (x :: xs) = insertByDateDesc x (sortByDateDesc xs) := rfl

theorem mem_insertByDateDesc {a e : Expense} {l : List Expense} :
    a ∈ insertByDateDesc e l ↔ a = e ∨ a ∈ l := by
  induction l with
  | nil => simp [insertByDateDesc]
  | cons x xs ih =>
    simp only [insertByDateDesc]
    split
    · simp [List.mem_cons]
    · simp only [List.mem_cons, ih]
      tauto

theorem mem_sortByDateDesc {a : Expense} {l : List Expense} :
    a ∈ sortByDateDesc l ↔ a ∈ l := by
  induction l with
  | nil => simp [sortByDateDesc]
  | cons x xs ih =>
    rw [sortByDateDesc_cons]
    simp [mem_insertByDateDesc, ih]

theorem sorted_insertByDateDesc {e : Expense} {l : List Expense} (h : dateSortedDesc l) :
    dateSortedDesc (insertByDateDesc e l) := by
  induction l with
  | nil => simp [insertByDateDesc, dateSortedDesc]
  | cons x xs ih =>
    rcases List.pairwise_cons.mp h with ⟨hx, hxs⟩
    simp only [insertByDateDesc]
    by_cases hlt : pyStrLt x.date e.date = true
    · rw [if_pos hlt]
      refine List.pairwise_cons.mpr ⟨?_, h⟩
      intro y hy
      rcases List.mem_cons.mp hy with rfl | hy2
      · exact pyStrLt_asymm hlt
      · cases hq : pyStrLt e.date y.date with
        | false => rfl
        | true =>
          have ht := pyStrLt_trans hlt hq
          rw [hx y hy2] at ht
          exact Bool.noConfusion ht
    · rw [if_neg hlt]
      have hxe : pyStrLt x.date e.date = false := by
        cases hq : pyStrLt x.date e.date
        · rfl
        · exact absurd hq hlt
      refine List.pairwise_cons.mpr ⟨?_, ih hxs⟩
      intro z hz
      rcases mem_insertByDateDesc.mp hz with rfl | hz2
      · exact hxe
      · exact hx z hz2

theorem sorted_sortByDateDesc (l : List Expense) : dateSortedDesc (sortByDateDesc l) := by
  induction l with
  | nil => exact List.Pairwise.nil
  | cons x xs ih =>
    rw [sortByDateDesc_cons]
    exact sorted_insertByDateDesc ih

/-- A successful association-list lookup is a member of the list. -/
theorem alistLookup_mem {α : Type} {l : List (String × α)} {k : String} {v : α}
    (h : alistLookup l k = some v) : (k, v) ∈ l := by
  induction l with
  | nil => exact Option.noConfusion h
  | cons p rest ih =>
    rw [alistLookup] at h
    split at h
    · next heq =>
      obtain rfl : p.2 = v := Option.some.inj h
      have : p = (k, p.2) := by
        cases p
        simpa using heq.symm ▸ rfl
      rw [← heq]
      exact List.mem_cons_self p rest
    · exact List.mem_cons_of_mem p (ih h)

theorem sqliteGet_none (rows : List Expense) (year : String) :
    sqliteGetExpensesByYear rows year none =
      sortByDateDesc (rows.filter fun r => r.year == year) := rfl

theorem sqliteGet_some (rows : List Expense) (year : String) (n : Nat) :
    sqliteGetExpensesByYear rows year (some n) =
      if n = 0 then sortByDateDesc (rows.filter fun r => r.year == year)
      else (sortByDateDesc (rows.filter fun r => r.year == year)).take n := rfl

theorem firestoreGet_none (store : FStore) (year : String) :
    firestoreGetExpensesByYear store year none =
      ((alistLookup store.partitions year).getD []).map FDoc.data := rfl

theorem firestoreGet_some (store : FStore) (year : String) (n : Nat) :
    firestoreGetExpensesByYear store year (some n) =
      (if n = 0 then (alistLookup store.partitions year).getD []
       else ((alistLookup store.partitions year).getD []).take n).map FDoc.data := rfl

/-- Every record the SQLite query returns comes from the filtered table. -/
theorem sqliteGet_subset (rows : List Expense) (year : String) (limit : Option Nat) :
    ∀ e ∈ sqliteGetExpensesByYear rows year limit,
      e ∈ rows.filter fun r => r.year == year := by
  intro e he
  cases limit with
  | none => exact mem_sortByDateDesc.mp he
  | some n =>
    rw [sqliteGet_some] at he
    by_cases hn : n = 0
    · rw [if_pos hn] at he
      exact mem_sortByDateDesc.mp he
    · rw [if_neg hn] at he
      exact mem_sortByDateDesc.mp (List.take_subset _ _ he)

/-- C3 counterexample: the Firestore backend streams the partition with no
ordering clause, so `get_expenses_by_year` can return dates in ascending
order — the claimed date-descending ordering fails on this input. -/
theorem C3_counterexample :
    firestoreGetExpensesByYear fstoreAB "2023" none = [exA, exB] ∧
    pyStrLt exA.date exB.date = true ∧
    ¬ dateSortedDesc (firestoreGetExpensesByYear fstoreAB "2023" none) := by
  refine ⟨rfl, by decide, ?_⟩
  intro h
  rw [show firestoreGetExpensesByYear fstoreAB "2023" none = [exA, exB] from rfl] at h
  have h2 := (List.pairwise_cons.mp h).1 exB (List.mem_cons_self _ _)
  exact absurd h2 (by decide)

/-- C3 (amended): both backends return only the requested year's records and
an empty sequence for an unknown year, never an error, and a non-zero limit
truncates the result count; the SQLite backend additionally orders by date
descending, while the Firestore backend returns the partition's documents in
stream order without date ordering (the counterexample above). -/
theorem C3_get_by_year_amended (rows : List Expense) (store : FStore) (year : String)
    (limit : Option Nat) :
    (∀ e ∈ sqliteGetExpensesByYear rows year limit, e.year = year) ∧
    dateSortedDesc (sqliteGetExpensesByYear rows year limit) ∧
    (∀ n, limit = some n → n ≠ 0 → (sqliteGetExpensesByYear rows year limit).length ≤ n) ∧
    ((∀ e ∈ rows, e.year ≠ year) → sqliteGetExpensesByYear rows year limit = []) ∧
    (FStoreWF store → ∀ e ∈ firestoreGetExpensesByYear store year limit, e.year = year) ∧
    (∀ n, limit = some n → n ≠ 0 → (firestoreGetExpensesByYear store year limit).length ≤ n) ∧
    (alistLookup store.partitions year = none →
      firestoreGetExpensesByYear store year limit = []) := by
  refine ⟨?_, ?_, ?_, ?_, ?_, ?_, ?_⟩
  · intro e he
    have h1 := List.mem_filter.mp (sqliteGet_subset rows year limit e he)
    exact eq_of_beq h1.2
  · cases limit with
    | none => exact sorted_sortByDateDesc _
    | some n =>
      rw [sqliteGet_some]
      by_cases hn : n = 0
      · rw [if_pos hn]
        exact sorted_sortByDateDesc _
      · rw [if_neg hn]
        exact (sorted_sortByDateDesc _).sublist (List.take_sublist n _)
  · intro n hl hn
    subst hl
    rw [sqliteGet_some, if_neg hn, List.length_take]
    exact min_le_left n _
  · intro h
    have hf : (rows.filter fun r => r.year == year) = [] := by
      refine List.filter_eq_nil_iff.mpr fun a ha => ?_
      simp [h a ha]
    cases limit with
    | none => rw [sqliteGet_none, hf]; rfl
    | some n =>
      rw [sqliteGet_some, hf]
      by_cases hn : n = 0 <;> simp [hn, sortByDateDesc]
  · intro hwf e he
    cases hl : alistLookup store.partitions year with
    | none =>
      cases limit with
      | none => rw [firestoreGet_none, hl] at he; simp at he
      | some n =>
        rw [firestoreGet_some, hl] at he
        by_cases hn : n = 0 <;> simp [hn] at he
    | some docs =>
      have hpart := alistLookup_mem hl
      have hdocs : ∃ d ∈ docs, d.data = e := by
        cases limit with
        | none =>
          rw [firestoreGet_none, hl] at he
          obtain ⟨d, hd, hde⟩ := List.mem_map.mp he
          exact ⟨d, hd, hde⟩
        | some n =>
          rw [firestoreGet_some, hl] at he
          by_cases hn : n = 0
          · rw [if_pos hn] at he
            obtain ⟨d, hd, hde⟩ := List.mem_map.mp he
            exact ⟨d, hd, hde⟩
          · rw [if_neg hn] at he
            obtain ⟨d, hd, hde⟩ := List.mem_map.mp he
            exact ⟨d, List.take_subset _ _ hd, hde⟩
      obtain ⟨d, hd, hde⟩ := hdocs
      rw [← hde]
      exact hwf.2 (year, docs) hpart d hd
  · intro n hl hn
    subst hl
    rw [firestoreGet_some, if_neg hn, List.length_map, List.length_take]
    exact min_le_left n _
  · intro hl
    cases limit with
    | none => rw [firestoreGet_none, hl]; rfl
    | some n =>
      rw [firestoreGet_some, hl]
      by_cases hn : n = 0 <;> simp [hn]

/-- Witness for C3 at a concrete input. -/
theorem C3_get_by_year_amended_witness :
    (∀ e ∈ firestoreGetExpensesByYear fstoreAB "2023" (some 1), e.year = "2023") ∧
    (firestoreGetExpensesByYear fstoreAB "2023" (some 1)).length ≤ 1 :=
  ⟨(C3_get_by_year_amended [] fstoreAB "2023" (some 1)).2.2.2.2.1 ⟨by decide, by decide⟩,
   (C3_get_by_year_amended [] fstoreAB "2023" (some 1)).2.2.2.2.2.1 1 rfl (by decide)⟩

set_option maxRecDepth 8000 in

/-- C4: the SQLite backend deletes the whole partition, reports its size,
leaves the year empty and is idempotent, as the claim states; but the
Firestore backend streams the partition with `.limit(500)` and never loops,
so on a 501-document partition it reports `deleted = 500` (not 501) and a
subsequent get still returns a record — the code contradicts its own
"Delete all expenses for a specific year" contract. -/
theorem C4_delete_by_year (rows : List Expense) (year : String) :
    (sqliteDeleteExpensesByYear rows year).2.deleted =
        (rows.filter fun r => r.year == year).length ∧
    (sqliteDeleteExpensesByYear rows year).2.status = "ok" ∧
    sqliteGetExpensesByYear (sqliteDeleteExpensesByYear rows year).1 year none = [] ∧
    (sqliteDeleteExpensesByYear (sqliteDeleteExpensesByYear rows year).1 year).2.deleted = 0 ∧
    (sqliteDeleteExpensesByYear (sqliteDeleteExpensesByYear rows year).1 year).2.status =
      "ok" ∧
    ((alistLookup c4bigStore.partitions "2023").getD []).length = 501 ∧
    (firestoreDeleteExpensesByYear c4bigStore "2023").2.deleted = 500 ∧
    firestoreGetExpensesByYear (firestoreDeleteExpensesByYear c4bigStore "2023").1 "2023"
      none ≠ [] := by
  have hnil : ((rows.filter fun r => !(r.year == year)).filter fun r => r.year == year)
      = [] := by
    rw [List.filter_filter]
    refine List.filter_eq_nil_iff.mpr fun a _ => ?_
    cases a.year == year <;> simp
  refine ⟨rfl, rfl, ?_, ?_, rfl, ?_, ?_, ?_⟩
  · rw [show (sqliteDeleteExpensesByYear rows year).1 =
      (rows.filter fun r => !(r.year == year)) from rfl, sqliteGet_none, hnil]
    rfl
  · show ((rows.filter fun r => !(r.year == year)).filter fun r => r.year == year).length = 0
    rw [hnil]
    rfl
  · rw [show alistLookup c4bigStore.partitions "2023" =
        some ((List.range 501).map c4doc) from rfl]
    simp
  · show (((alistLookup c4bigStore.partitions "2023").getD []).take 500).length = 500
    rw [show alistLookup c4bigStore.partitions "2023" =
        some ((List.range 501).map c4doc) from rfl]
    simp [List.length_take]
  · have hlen : (firestoreGetExpensesByYear
        (firestoreDeleteExpensesByYear c4bigStore "2023").1 "2023" none).length = 1 := by
      rw [firestoreGet_none,
        show alistLookup (firestoreDeleteExpensesByYear c4bigStore "2023").1.partitions
            "2023" = some (((List.range 501).map c4doc).drop 500) from rfl]
      simp [List.length_drop]
    intro h
    rw [h] at hlen
    exact Nat.noConfusion hlen

theorem alistLookup_none {α : Type} {l : List (String × α)} {k : String}
    (h : ∀ p ∈ l, p.1 ≠ k) : alistLookup l k = none := by
  induction l with
  | nil => rfl
  | cons p rest ih =>
    obtain ⟨k1, v1⟩ := p
    rw [alistLookup, if_neg (h (k1, v1) (List.mem_cons_self _ _))]
    exact ih fun q hq => h q (List.mem_cons_of_mem _ hq)

/-- The sequential Python filters compute the single conjunction filter. -/
theorem pyFilterChain_eq_filter (f : SearchFilters) (docs : List Expense) :
    pyFilterChain f docs = docs.filter fun e => restMatch f e := by
  by_cases h1 : strTruthy f.category <;>
    by_cases h2 : strTruthy f.dateFrom <;>
      by_cases h3 : strTruthy f.dateTo <;>
        cases hm : f.minAmount <;>
          cases hM : f.maxAmount <;>
            (simp [pyFilterChain, h1, h2, h3, hm, hM, List.filter_filter, List.filter_true]
             first
             | (refine List.filter_congr fun e he => ?_
                rw [Bool.eq_iff_iff]
                simp [restMatch, h1, h2, h3, hm, hM, Bool.and_eq_true]
                try tauto)
             | (refine (List.filter_eq_self.mpr fun e he => ?_).symm
                simp [restMatch, h1, h2, h3, hm, hM]))

/-- Under well-formedness, restricting the flattened store to one year gives
exactly that year's partition, in stored order. -/
theorem flatten_filter_year (parts : List (String × List FDoc)) (y : String)
    (hkeys : parts.Pairwise fun p q => p.1 ≠ q.1)
    (hyears : ∀ p ∈ parts, ∀ d ∈ p.2, d.data.year = p.1) :
    ((parts.foldr (fun p acc => p.2.map FDoc.data ++ acc) []).filter
        fun e => e.year == y) =
      ((alistLookup parts y).getD []).map FDoc.data := by
  induction parts with
  | nil => rfl
  | cons p rest ih =>
    obtain ⟨k, docs⟩ := p
    rcases List.pairwise_cons.mp hkeys with ⟨hp, hrest⟩
    have hrestYears : ∀ q ∈ rest, ∀ d ∈ q.2, d.data.year = q.1 :=
      fun q hq => hyears q (List.mem_cons_of_mem _ hq)
    have hmine : ∀ d ∈ docs, d.data.year = k :=
      hyears (k, docs) (List.mem_cons_self _ _)
    rw [List.foldr_cons, List.filter_append, alistLookup]
    by_cases hk : k = y
    · rw [if_pos hk]
      have hall : ((docs.map FDoc.data).filter fun e => e.year == y) = docs.map FDoc.data := by
        refine List.filter_eq_self.mpr fun e he => ?_
        obtain ⟨d, hd, rfl⟩ := List.mem_map.mp he
        simp [hmine d hd, hk]
      have hnone : ((rest.foldr (fun p acc => p.2.map FDoc.data ++ acc) []).filter
          fun e => e.year == y) = [] := by
        rw [ih hrest hrestYears, alistLookup_none fun q hq => hk ▸ (hp q hq).symm]
        rfl
      rw [hall, hnone, List.append_nil]
      rfl
    · rw [if_neg hk]
      have hno : ((docs.map FDoc.data).filter fun e => e.year == y) = [] := by
        refine List.filter_eq_nil_iff.mpr fun e he => ?_
        obtain ⟨d, hd, rfl⟩ := List.mem_map.mp he
        simp [hmine d hd, hk]
      rw [hno, List.nil_append]
      exact ih hrest hrestYears

/-- `flattenDocs` phrasing of `flatten_filter_year`. -/
theorem flattenDocs_filter_year (store : FStore) (hwf : FStoreWF store) (y : String) :
    ((flattenDocs store).filter fun e => e.year == y) =
      ((alistLookup store.partitions y).getD []).map FDoc.data :=
  flatten_filter_year store.partitions y hwf.1 hwf.2

/-- C7: on a well-formed store, the two search implementations return the
same result sequence (a fortiori the same result set); the results are
exactly the stored records passing the conjunction of the optional filters
— so with `min_amount`/`max_amount` given, only records with
`min ≤ amount ≤ max` are returned — inclusively, and ordered by date
descending. -/
theorem C7_search_equivalence (store : FStore) (f : SearchFilters) (hwf : FStoreWF store) :
    sqliteSearchExpenses (flattenDocs store) f = firestoreSearchExpenses store f ∧
    (∀ e, e ∈ sqliteSearchExpenses (flattenDocs store) f ↔
      e ∈ flattenDocs store ∧ sqliteMatch f e = true) ∧
    dateSortedDesc (sqliteSearchExpenses (flattenDocs store) f) ∧
    (∀ e a b, e ∈ sqliteSearchExpenses (flattenDocs store) f →
      f.minAmount = some a → f.maxAmount = some b → a ≤ e.amount ∧ e.amount ≤ b) := by
  have hmem : ∀ e, e ∈ sqliteSearchExpenses (flattenDocs store) f ↔
      e ∈ flattenDocs store ∧ sqliteMatch f e = true := by
    intro e
    rw [sqliteSearchExpenses, mem_sortByDateDesc, List.mem_filter]
  refine ⟨?_, hmem, sorted_sortByDateDesc _, ?_⟩
  · have key : (flattenDocs store).filter (sqliteMatch f) =
        pyFilterChain f
          (if strTruthy f.year then
            ((alistLookup store.partitions (f.year.getD "")).getD []).map FDoc.data
          else flattenDocs store) := by
      by_cases hy : strTruthy f.year = true
      · rw [if_pos hy]
        calc (flattenDocs store).filter (sqliteMatch f)
            = ((flattenDocs store).filter fun e => e.year == f.year.getD "").filter
                (fun e => restMatch f e) := by
              rw [List.filter_filter]
              exact List.filter_congr fun e _ => by simp [sqliteMatch, hy, Bool.and_comm]
          _ = (((alistLookup store.partitions (f.year.getD "")).getD []).map
                FDoc.data).filter (fun e => restMatch f e) := by
              rw [flattenDocs_filter_year store hwf (f.year.getD "")]
          _ = pyFilterChain f (((alistLookup store.partitions (f.year.getD "")).getD
                []).map FDoc.data) := (pyFilterChain_eq_filter f _).symm
      · rw [if_neg hy]
        have hyf : strTruthy f.year = false := by
          cases hq : strTruthy f.year
          · rfl
          · exact absurd hq hy
        have hcongr : (flattenDocs store).filter (sqliteMatch f) =
            (flattenDocs store).filter fun e => restMatch f e :=
          List.filter_congr fun e _ => by simp [sqliteMatch, hyf]
        rw [hcongr, pyFilterChain_eq_filter]
    rw [sqliteSearchExpenses, firestoreSearchExpenses, key]
  · intro e a b he hma hmb
    have hmatch := ((hmem e).mp he).2
    rw [sqliteMatch, restMatch, hma, hmb] at hmatch
    simp only [Bool.and_eq_true, decide_eq_true_eq] at hmatch
    refine ⟨?_, ?_⟩ <;> tauto

/-- Witness for C7 at a concrete seeded store and amount-range filter. -/
theorem C7_search_equivalence_witness :
    sqliteSearchExpenses (flattenDocs fstoreAB) amountFilter520 =
      firestoreSearchExpenses fstoreAB amountFilter520 ∧
    Rat.divInt 5 1 ≤ exA.amount ∧ exA.amount ≤ Rat.divInt 200 1 :=
  ⟨(C7_search_equivalence fstoreAB amountFilter520 ⟨by decide, by decide⟩).1,
   (C7_search_equivalence fstoreAB amountFilter520 ⟨by decide, by decide⟩).2.2.2 exA
     (Rat.divInt 5 1) (Rat.divInt 200 1) (by decide) rfl rfl⟩

/-- C9: a limit of 0 is falsy for the `if limit:` guards of both backends,
so `limit=0` behaves exactly like passing no limit: all records of the year
are returned. -/
theorem C9_limit_zero (rows : List Expense) (store : FStore) (year : String) :
    sqliteGetExpensesByYear rows year (some 0) = sqliteGetExpensesByYear rows year none ∧
    firestoreGetExpensesByYear store year (some 0) =
      firestoreGetExpensesByYear store year none :=
  ⟨rfl, rfl⟩

end Db
